import Mathlib

/-!
Verification of the AllanAI table-tennis analysis core
(backend/backend/cv/model_service.py and backend/backend/cv/table_calibration.py).

The Python source is shallowly embedded: pixel coordinates and frame-rate
values become rationals, frame indices become integers, Python dicts that
carry events become records whose optional keys are Option fields, and the
mutable classes GameStateTracker and EnhancedEventDetector become records
threaded through pure functions.  Floating point speed values, which pass
through a square root, are modelled as real numbers.  Each definition mirrors
one Python function of the source, keeping its name where Lean allows it.
-/

namespace AllanAI

/-- Side enum of the source (LEFT = 1, RIGHT = 2, UNKNOWN = 0). -/
inductive Side
  | LEFT
  | RIGHT
  | UNKNOWN
deriving DecidableEq, Repr

/-- GamePhase enum of the source.  POINT_SCORED is declared by the source but
never assigned by any transition. -/
inductive GamePhase
  | WAITING_FOR_SERVE
  | SERVE_IN_PROGRESS
  | RALLY_IN_PROGRESS
  | POINT_SCORED
deriving DecidableEq, Repr

/-- BallPosition dataclass: a ball observation at a frame.  The optional
bounding box is never read by the state machine or the detectors and is
omitted. -/
structure BallPosition where
  x : ℚ
  y : ℚ
  confidence : ℚ
  frame : ℤ
deriving DecidableEq, Repr

/-- TableBounds dataclass: playing surface rectangle plus the net line. -/
structure TableBounds where
  x_min : ℚ
  y_min : ℚ
  x_max : ℚ
  y_max : ℚ
  net_x : ℚ
deriving DecidableEq, Repr

/-- TableBounds.contains: point within the rectangle expanded by margin.
The chained Python comparisons become a conjunction. -/
def TableBounds.contains (b : TableBounds) (x y margin : ℚ) : Bool :=
  decide (b.x_min - margin ≤ x ∧ x ≤ b.x_max + margin ∧
          b.y_min - margin ≤ y ∧ y ≤ b.y_max + margin)

/-- TableBounds.get_side: LEFT left of the net line, RIGHT right of it,
UNKNOWN exactly on it. -/
def TableBounds.get_side (b : TableBounds) (x : ℚ) : Side :=
  if x < b.net_x then Side.LEFT
  else if x > b.net_x then Side.RIGHT
  else Side.UNKNOWN

/-- TableBounds.near_net: strictly within threshold of the net line. -/
def TableBounds.near_net (b : TableBounds) (x threshold : ℚ) : Bool :=
  decide (|x - b.net_x| < threshold)

/-- Python int() applied to a rational: truncation toward zero. -/
def pyInt (q : ℚ) : ℤ :=
  if 0 ≤ q then ⌊q⌋ else -⌊-q⌋

/-- Game event dict.  Keys that a given branch of the source leaves out of
its dict are modelled as none. -/
structure GEvent where
  type : String
  label : String
  is_scoring : Bool
  scoring_side : Option ℤ := none
  rally_length : Option ℕ := none
  duration : Option ℚ := none
deriving DecidableEq, Repr

/-- GameStateTracker state (fields of __init__). -/
structure GameStateTracker where
  fps : ℚ
  phase : GamePhase
  server : Side
  scoreLeft : ℕ
  scoreRight : ℕ
  rally_shot_count : ℕ
  rally_start_frame : ℤ
  last_bounce_side : Side
  last_bounce_frame : ℤ
  serve_count : ℕ
  last_ball_side : Side
deriving DecidableEq, Repr

/-- GameStateTracker.__init__. -/
def GameStateTracker.init (fps : ℚ) : GameStateTracker :=
  { fps := fps
    phase := GamePhase.WAITING_FOR_SERVE
    server := Side.LEFT
    scoreLeft := 0
    scoreRight := 0
    rally_shot_count := 0
    rally_start_frame := 0
    last_bounce_side := Side.UNKNOWN
    last_bounce_frame := -100
    serve_count := 0
    last_ball_side := Side.UNKNOWN }

/-- GameStateTracker.should_switch_server: server switches when the total of
both scores is even. -/
def GameStateTracker.should_switch_server (t : GameStateTracker) : Bool :=
  decide ((t.scoreLeft + t.scoreRight) % 2 = 0)

/-- GameStateTracker._side_value restricted to actual Side arguments (the
isinstance fallbacks of the source never fire on a Side). -/
def sideValue : Side → ℤ
  | Side.LEFT => 1
  | Side.RIGHT => 2
  | Side.UNKNOWN => 0

/-- GameStateTracker._award_point: increment the score of a known side,
flip the server when the total is now even, reset phase and rally state.
A side of UNKNOWN fails the membership test of the source and leaves the
score untouched while still running the flip check and the reset. -/
def GameStateTracker.award_point (t : GameStateTracker) (side : Side) : GameStateTracker :=
  let t1 :=
    if side = Side.LEFT then { t with scoreLeft := t.scoreLeft + 1 }
    else if side = Side.RIGHT then { t with scoreRight := t.scoreRight + 1 }
    else t
  let t2 :=
    if t1.should_switch_server then
      { t1 with server := if t1.server = Side.LEFT then Side.RIGHT else Side.LEFT }
    else t1
  { t2 with
    phase := GamePhase.WAITING_FOR_SERVE
    rally_shot_count := 0
    last_bounce_side := Side.UNKNOWN }

/-- GameStateTracker.process_bounce.  The source also receives the ball
history deque, which its body never reads; that parameter is omitted.
Returns the updated tracker and the event dict, if any. -/
def GameStateTracker.process_bounce (t : GameStateTracker) (ball_pos : BallPosition)
    (table_bounds : TableBounds) : GameStateTracker × Option GEvent :=
  if ball_pos.frame - t.last_bounce_frame < pyInt (t.fps * 0.08) then (t, none)
  else
    let on_table := table_bounds.contains ball_pos.x ball_pos.y 20
    let bounce_side := table_bounds.get_side ball_pos.x
    let r : GameStateTracker × Option GEvent :=
      match t.phase with
      | GamePhase.WAITING_FOR_SERVE =>
        if on_table = true ∧ bounce_side = t.server then
          ({ t with
              phase := GamePhase.SERVE_IN_PROGRESS
              rally_start_frame := ball_pos.frame
              rally_shot_count := 1
              last_bounce_side := bounce_side },
           some { type := "serve", label := "Serve", is_scoring := false })
        else
          let opponent := if t.server = Side.LEFT then Side.RIGHT else Side.LEFT
          (t.award_point opponent,
           some { type := "MISS", label := "Service Fault", is_scoring := true,
                  scoring_side := some (sideValue opponent) })
      | GamePhase.SERVE_IN_PROGRESS =>
        let opponent_side := if t.server = Side.LEFT then Side.RIGHT else Side.LEFT
        if on_table = true ∧ bounce_side = opponent_side then
          ({ t with
              phase := GamePhase.RALLY_IN_PROGRESS
              rally_shot_count := t.rally_shot_count + 1
              last_bounce_side := bounce_side },
           some { type := "bounce", label := "Ball Bounce", is_scoring := false })
        else if on_table = false then
          (t.award_point opponent_side,
           some { type := "MISS", label := "Serve Out", is_scoring := true,
                  scoring_side := some (sideValue opponent_side) })
        else
          (t.award_point opponent_side,
           some { type := "MISS", label := "Service Error", is_scoring := true,
                  scoring_side := some (sideValue opponent_side) })
      | GamePhase.RALLY_IN_PROGRESS =>
        let expected_side := if t.last_bounce_side = Side.LEFT then Side.RIGHT else Side.LEFT
        if on_table = true ∧ bounce_side = expected_side then
          ({ t with
              rally_shot_count := t.rally_shot_count + 1
              last_bounce_side := bounce_side },
           some { type := "bounce", label := "Ball Bounce", is_scoring := false,
                  rally_length := some (t.rally_shot_count + 1) })
        else if on_table = false then
          let scoring_side := t.last_bounce_side
          (t.award_point scoring_side,
           some { type := "MISS", label := "Ball Out", is_scoring := true,
                  scoring_side := some (sideValue scoring_side) })
        else
          let scoring_side := bounce_side
          (t.award_point scoring_side,
           some { type := "MISS", label := "Double Bounce", is_scoring := true,
                  scoring_side := some (sideValue scoring_side) })
      | GamePhase.POINT_SCORED => (t, none)
    ({ r.1 with last_bounce_frame := ball_pos.frame }, r.2)

/-- GameStateTracker.process_net_hit.  The position and table bounds reach
the source function but its body never reads them. -/
def GameStateTracker.process_net_hit (t : GameStateTracker) (_ball_pos : BallPosition)
    (_table_bounds : TableBounds) : GameStateTracker × Option GEvent :=
  match t.phase with
  | GamePhase.SERVE_IN_PROGRESS =>
    let opponent := if t.server = Side.LEFT then Side.RIGHT else Side.LEFT
    (t.award_point opponent,
     some { type := "MISS", label := "Net on Serve", is_scoring := true,
            scoring_side := some (sideValue opponent) })
  | GamePhase.RALLY_IN_PROGRESS =>
    (t, some { type := "net_hit", label := "Net Hit", is_scoring := false })
  | _ => (t, none)

/-- GameStateTracker.finish_rally.  Note that the source calls _award_point
before it builds the returned dict, so the rally_length key reads the
already reset rally_shot_count. -/
def GameStateTracker.finish_rally (t : GameStateTracker) (final_frame : ℤ) :
    GameStateTracker × Option GEvent :=
  if 0 < t.rally_shot_count then
    let duration : ℚ := ((final_frame - t.rally_start_frame : ℤ) : ℚ) / t.fps
    if t.phase = GamePhase.RALLY_IN_PROGRESS then
      let scoring_side := t.last_bounce_side
      let t1 := t.award_point scoring_side
      (t1,
       some { type := "SCORE", label := "Rally End", is_scoring := true,
              scoring_side := some (sideValue scoring_side),
              rally_length := some t1.rally_shot_count,
              duration := some duration })
    else
      ({ t with rally_shot_count := 0 }, none)
  else (t, none)

/-- Event type mapping of the orchestrator analyze_video: upper-case the
type string, but every scoring event is renamed to SCORE. -/
def orchestratorEventType (e : GEvent) : String :=
  if e.is_scoring then "SCORE" else e.type.toUpper

/-- TableDetector.calibrate_from_points: the four corner points are reduced
to their axis-aligned bounding rectangle, the net line to its horizontal
midpoint.  No validation of any kind is performed. -/
def calibrate_from_points (top_left top_right bottom_left bottom_right : ℚ × ℚ) :
    TableBounds :=
  let x_min := min (min (min top_left.1 top_right.1) bottom_left.1) bottom_right.1
  let x_max := max (max (max top_left.1 top_right.1) bottom_left.1) bottom_right.1
  let y_min := min (min (min top_left.2 top_right.2) bottom_left.2) bottom_right.2
  let y_max := max (max (max top_left.2 top_right.2) bottom_left.2) bottom_right.2
  { x_min := x_min, y_min := y_min, x_max := x_max, y_max := y_max,
    net_x := (x_min + x_max) / 2 }

/-- The other side of the table: the expression the source writes at every
opponent computation and at the server flip (UNKNOWN maps to LEFT). -/
def flipS (s : Side) : Side := if s = Side.LEFT then Side.RIGHT else Side.LEFT

/-- Total points, score LEFT plus score RIGHT. -/
def scoreSum (t : GameStateTracker) : ℕ := t.scoreLeft + t.scoreRight

/-- Score of one side, as the score dict of the source indexes it. -/
def scoreOf (t : GameStateTracker) : Side → ℕ
  | Side.LEFT => t.scoreLeft
  | Side.RIGHT => t.scoreRight
  | Side.UNKNOWN => 0

/-- The table geometry of the concrete spec scenarios. -/
def tbC : TableBounds := ⟨0, 0, 1000, 500, 500⟩

/-! ### Claim C2: finish_rally on a timed-out rally -/

/-- The tracker state of the timeout scenario: fps 30, rally in progress with
three shots, last legal bounce by LEFT, rally started at frame 100. -/
def c2t : GameStateTracker :=
  ⟨30, GamePhase.RALLY_IN_PROGRESS, Side.LEFT, 0, 0, 3, 100, Side.LEFT, 50, 0, Side.UNKNOWN⟩

/-- Claim C2, evaluated at the failing input: finish_rally at frame 131 does
award the point to LEFT and does return a SCORE event labelled Rally End with
duration 31/30 seconds and scoring side LEFT, but its rally_length field is 0
rather than 3, because the source resets rally_shot_count inside _award_point
before the event dict reads it. -/
theorem c2_bug :
    (c2t.finish_rally 131).2 =
      some { type := "SCORE", label := "Rally End", is_scoring := true,
             scoring_side := some 1, rally_length := some 0, duration := some (31/30) } ∧
    (c2t.finish_rally 131).1.scoreLeft = 1 ∧
    (c2t.finish_rally 131).1.scoreRight = 0 ∧
    ((c2t.finish_rally 131).2.bind fun e => e.rally_length) ≠ some 3 := by
  norm_num [c2t, GameStateTracker.finish_rally, GameStateTracker.award_point,
    GameStateTracker.should_switch_server, sideValue]

/-! ### Claim C3: the concrete legal-rally scenario -/

def c3p1 : BallPosition := ⟨200, 250, 9/10, 10⟩

def c3p2 : BallPosition := ⟨800, 250, 9/10, 20⟩

def c3p3 : BallPosition := ⟨1200, 250, 9/10, 30⟩

def c3r1 : GameStateTracker × Option GEvent :=
  (GameStateTracker.init 30).process_bounce c3p1 tbC

def c3r2 : GameStateTracker × Option GEvent := c3r1.1.process_bounce c3p2 tbC

def c3r3 : GameStateTracker × Option GEvent := c3r2.1.process_bounce c3p3 tbC

/-- Claim C3 as the code runs it: serve event then SERVE_IN_PROGRESS; bounce
event then RALLY_IN_PROGRESS with rally_shot_count 2, though the serve
completion branch of the source attaches no rally_length key to its event;
then MISS Ball Out, point to RIGHT, phase back to WAITING_FOR_SERVE and
score LEFT 0, RIGHT 1. -/
theorem c3_amended :
    c3r1.2 = some { type := "serve", label := "Serve", is_scoring := false } ∧
    c3r1.1.phase = GamePhase.SERVE_IN_PROGRESS ∧
    c3r2.2 = some { type := "bounce", label := "Ball Bounce", is_scoring := false } ∧
    c3r2.1.phase = GamePhase.RALLY_IN_PROGRESS ∧
    c3r2.1.rally_shot_count = 2 ∧
    c3r3.2 = some { type := "MISS", label := "Ball Out", is_scoring := true,
                    scoring_side := some 2 } ∧
    c3r3.1.phase = GamePhase.WAITING_FOR_SERVE ∧
    c3r3.1.scoreLeft = 0 ∧ c3r3.1.scoreRight = 1 := by
  norm_num [c3r1, c3r2, c3r3, c3p1, c3p2, c3p3, tbC, GameStateTracker.process_bounce,
    GameStateTracker.init, GameStateTracker.award_point,
    GameStateTracker.should_switch_server, pyInt, TableBounds.contains,
    TableBounds.get_side, sideValue]
  decide

/-- Claim C3 as stated is false: the second event, emitted when the serve
completes at x = 800, carries no rally_length field at all, in particular
not rally_length 2. -/
theorem c3_counterexample :
    (c3r2.2.bind fun e => e.rally_length) = none ∧
    (none : Option ℕ) ≠ some 2 := by
  refine ⟨?_, by simp⟩
  norm_num [c3r1, c3r2, c3p1, c3p2, tbC, GameStateTracker.process_bounce,
    GameStateTracker.init, pyInt, TableBounds.contains, TableBounds.get_side]

/-! ### Claim C5: the debounce window -/

/-- Claim C5, amended: a candidate is discarded, with the whole tracker state
unchanged, exactly when its frame distance to the previously processed bounce
is strictly below the Python int truncation of fps times 0.08; a candidate at
or beyond that integer threshold is processed and becomes the new reference
bounce frame. -/
theorem c5_amended (t : GameStateTracker) (p : BallPosition) (b : TableBounds) :
    (p.frame - t.last_bounce_frame < pyInt (t.fps * 0.08) →
      t.process_bounce p b = (t, none)) ∧
    (pyInt (t.fps * 0.08) ≤ p.frame - t.last_bounce_frame →
      (t.process_bounce p b).1.last_bounce_frame = p.frame) := by
  constructor
  · intro h
    simp only [GameStateTracker.process_bounce, if_pos h]
  · intro h
    rw [GameStateTracker.process_bounce, if_neg (by omega)]

/-- The tracker of the C5 counterexample: a rally in progress whose previously
accepted bounce is at frame 10, at 30 fps. -/
def c5t : GameStateTracker :=
  ⟨30, GamePhase.RALLY_IN_PROGRESS, Side.LEFT, 0, 0, 2, 5, Side.LEFT, 10, 0, Side.UNKNOWN⟩

def c5p : BallPosition := ⟨800, 250, 9/10, 12⟩

/-- Claim C5 as stated is false: at 30 fps a candidate 2 frames after the
previously accepted bounce lies within 0.08 times fps = 2.4 frames of it,
yet the source processes it (emitting an event and mutating state) because
2 is not strictly below int(2.4) = 2. -/
theorem c5_counterexample :
    ((c5p.frame - c5t.last_bounce_frame : ℤ) : ℚ) ≤ c5t.fps * 0.08 ∧
    (c5t.process_bounce c5p tbC).2.isSome = true ∧
    (c5t.process_bounce c5p tbC).1.rally_shot_count = 3 ∧
    c5t.rally_shot_count = 2 := by
  norm_num [c5t, c5p, tbC, GameStateTracker.process_bounce, pyInt,
    TableBounds.contains, TableBounds.get_side]

/-! ### Claim C7: manual calibration is never rejected -/

/-- Claim C7, amended: calibration from four corner points performs no
validation and cannot fail; the bounds it returns always satisfy the weak
inequalities x_min at most net_x at most x_max and y_min at most y_max, with
the net on the horizontal midpoint, but degenerate (empty-area) rectangles
are accepted and handed to the core. -/
theorem c7_amended (tl tr bl br : ℚ × ℚ) :
    (calibrate_from_points tl tr bl br).x_min ≤ (calibrate_from_points tl tr bl br).net_x ∧
    (calibrate_from_points tl tr bl br).net_x ≤ (calibrate_from_points tl tr bl br).x_max ∧
    (calibrate_from_points tl tr bl br).x_min ≤ (calibrate_from_points tl tr bl br).x_max ∧
    (calibrate_from_points tl tr bl br).y_min ≤ (calibrate_from_points tl tr bl br).y_max := by
  have hx : min (min (min tl.1 tr.1) bl.1) br.1 ≤ max (max (max tl.1 tr.1) bl.1) br.1 :=
    le_trans (le_trans (min_le_left _ _) (le_trans (min_le_left _ _) (min_le_left _ _)))
      (le_trans (le_max_left _ _) (le_trans (le_max_left _ _) (le_max_left _ _)))
  have hy : min (min (min tl.2 tr.2) bl.2) br.2 ≤ max (max (max tl.2 tr.2) bl.2) br.2 :=
    le_trans (le_trans (min_le_left _ _) (le_trans (min_le_left _ _) (min_le_left _ _)))
      (le_trans (le_max_left _ _) (le_trans (le_max_left _ _) (le_max_left _ _)))
  refine ⟨?_, ?_, hx, hy⟩ <;> simp only [calibrate_from_points] <;> linarith

/-- Claim C7 as stated is false: four coincident corner points (fewer than 4
distinct points, reducing to a degenerate rectangle) are not rejected; the
calibration totally succeeds and returns bounds with x_min = x_max = 5,
violating the strict invariant the claim says the core is protected by. -/
theorem c7_counterexample :
    calibrate_from_points (5, 5) (5, 5) (5, 5) (5, 5) =
      { x_min := 5, y_min := 5, x_max := 5, y_max := 5, net_x := 5 } ∧
    ¬((5:ℚ) < 5) := by
  norm_num [calibrate_from_points]

/-! ### Claim C8: finish_rally when no rally is active -/

/-- Claim C8, amended: with rally_shot_count 0 finish_rally returns no event
and leaves the whole state unchanged; with a positive rally_shot_count but a
phase other than RALLY_IN_PROGRESS it still returns no event, but it resets
rally_shot_count to 0 (all other fields unchanged) rather than leaving the
state intact. -/
theorem c8_amended (t : GameStateTracker) (f : ℤ) :
    (t.rally_shot_count = 0 → t.finish_rally f = (t, none)) ∧
    (0 < t.rally_shot_count → t.phase ≠ GamePhase.RALLY_IN_PROGRESS →
      t.finish_rally f = ({ t with rally_shot_count := 0 }, none)) := by
  constructor
  · intro h
    rw [GameStateTracker.finish_rally, if_neg (by omega)]
  · intro h hp
    rw [GameStateTracker.finish_rally, if_pos h, if_neg hp]

/-- A reachable state with a serve in progress (one shot) and no rally phase:
the initial tracker after a single legal serve bounce. -/
def c8t : GameStateTracker :=
  ⟨30, GamePhase.SERVE_IN_PROGRESS, Side.LEFT, 0, 0, 1, 10, Side.LEFT, 10, 0, Side.UNKNOWN⟩

/-- Claim C8 as stated is false: in phase SERVE_IN_PROGRESS with
rally_shot_count 1 (no rally active in the sense of the claim), finish_rally
returns no event but does change the tracker state, resetting
rally_shot_count from 1 to 0. -/
theorem c8_counterexample :
    (c8t.finish_rally 50).2 = none ∧
    (c8t.finish_rally 50).1.rally_shot_count = 0 ∧
    c8t.rally_shot_count = 1 := by
  simp [c8t, GameStateTracker.finish_rally]

/-! ### Claim C1: score accounting and server rotation over whole runs -/

/-- One input to the state machine: a bounce classification, a net-hit
signal, or a finish (timeout) call, as the orchestrator delivers them. -/
inductive GInput
  | bounce (pos : BallPosition) (bounds : TableBounds)
  | netHit (pos : BallPosition) (bounds : TableBounds)
  | finish (frame : ℤ)

/-- One step of the state machine on one input. -/
def stepT (t : GameStateTracker) : GInput → GameStateTracker × Option GEvent
  | GInput.bounce p b => t.process_bounce p b
  | GInput.netHit p b => t.process_net_hit p b
  | GInput.finish f => t.finish_rally f

/-- Run the state machine from a given state, collecting emitted events. -/
def runFrom (t : GameStateTracker) : List GInput → GameStateTracker × List GEvent
  | [] => (t, [])
  | i :: rest =>
    let r := stepT t i
    let rr := runFrom r.1 rest
    (rr.1, r.2.toList ++ rr.2)

/-- Run from the initial tracker at a given frame rate. -/
def runT (fps : ℚ) (l : List GInput) : GameStateTracker × List GEvent :=
  runFrom (GameStateTracker.init fps) l

/-- A point-award event whose scoring side is a real side (LEFT = 1 or
RIGHT = 2); awards with scoring side 0 never touch the score. -/
def isKnownAward (e : GEvent) : Bool :=
  e.is_scoring && (e.scoring_side == some 1 || e.scoring_side == some 2)

def countKnownAwards (evs : List GEvent) : ℕ := (evs.filter isKnownAward).length

def countScoringEvents (evs : List GEvent) : ℕ :=
  (evs.filter (fun e => e.is_scoring)).length

def awardCountO : Option GEvent → ℕ
  | some e => if isKnownAward e then 1 else 0
  | none => 0

lemma flipS_ne (s : Side) : flipS s ≠ s := by
  cases s <;> simp [flipS]

lemma scoreSum_award_point (t : GameStateTracker) (s : Side) :
    scoreSum (t.award_point s) = scoreSum t + (if s = Side.UNKNOWN then 0 else 1) := by
  obtain ⟨fps, ph, sv, sl, sr, rc, rsf, lbs, lbf, sc, lbl⟩ := t
  cases s <;>
    simp only [GameStateTracker.award_point, GameStateTracker.should_switch_server,
      scoreSum, decide_eq_true_eq] <;>
    split_ifs <;>
    (try simp_all) <;>
    omega

lemma server_award_point (t : GameStateTracker) (s : Side) :
    (t.award_point s).server =
      if scoreSum (t.award_point s) % 2 = 0 then flipS t.server else t.server := by
  obtain ⟨fps, ph, sv, sl, sr, rc, rsf, lbs, lbf, sc, lbl⟩ := t
  cases s <;>
    simp only [GameStateTracker.award_point, GameStateTracker.should_switch_server,
      scoreSum, flipS, decide_eq_true_eq] <;>
    split_ifs <;>
    simp_all

lemma award_flip_iff (t : GameStateTracker) (s : Side) :
    (t.award_point s).server ≠ t.server ↔ Even (scoreSum (t.award_point s)) := by
  rw [server_award_point, Nat.even_iff]
  split_ifs with hc
  · simp [hc, flipS_ne]
  · simp [hc]

lemma isKnownAward_mk (ty lb : String) (x : Side) (rl : Option ℕ) (du : Option ℚ) :
    isKnownAward { type := ty, label := lb, is_scoring := true,
                   scoring_side := some (sideValue x), rally_length := rl, duration := du } =
      decide (x ≠ Side.UNKNOWN) := by
  cases x <;> simp [isKnownAward, sideValue]

lemma scoreOf_award_point (t : GameStateTracker) (s : Side) (hs : s ≠ Side.UNKNOWN) :
    scoreOf (t.award_point s) s = scoreOf t s + 1 := by
  obtain ⟨fps, ph, sv, sl, sr, rc, rsf, lbs, lbf, sc, lbl⟩ := t
  cases s <;>
    simp only [GameStateTracker.award_point, GameStateTracker.should_switch_server,
      scoreOf, decide_eq_true_eq] <;>
    first
    | exact absurd rfl hs
    | (split_ifs <;> (try simp_all) <;> omega)

lemma scoreSum_update_lbf (t : GameStateTracker) (f : ℤ) :
    scoreSum { t with last_bounce_frame := f } = scoreSum t := rfl

lemma award_count_pair (t : GameStateTracker) (x : Side) (ty lb : String)
    (rl : Option ℕ) (du : Option ℚ) :
    scoreSum (t.award_point x) =
      scoreSum t + awardCountO (some { type := ty, label := lb, is_scoring := true,
                                       scoring_side := some (sideValue x),
                                       rally_length := rl, duration := du }) := by
  rw [scoreSum_award_point]
  simp only [awardCountO, isKnownAward_mk]
  cases x <;> simp

lemma stepT_scoreSum (t : GameStateTracker) (i : GInput) :
    scoreSum (stepT t i).1 = scoreSum t + awardCountO (stepT t i).2 := by
  cases i with
  | bounce p b =>
    simp only [stepT, GameStateTracker.process_bounce]
    split
    · simp [awardCountO, scoreSum]
    · cases hph : t.phase <;> dsimp only <;> (try split_ifs) <;>
        first
        | (simp [awardCountO, isKnownAward, scoreSum]; done)
        | (rw [scoreSum_update_lbf]; exact award_count_pair _ _ _ _ _ _)
  | netHit p b =>
    simp only [stepT, GameStateTracker.process_net_hit]
    cases hph : t.phase <;> dsimp only <;>
      first
      | (simp [awardCountO, isKnownAward, scoreSum]; done)
      | exact award_count_pair _ _ _ _ _ _
  | finish f =>
    simp only [stepT, GameStateTracker.finish_rally]
    (try split_ifs) <;>
      first
      | (simp [awardCountO, isKnownAward, scoreSum]; done)
      | exact award_count_pair _ _ _ _ _ _

lemma award_flip_iff_lbf (t : GameStateTracker) (x : Side) (f : ℤ) :
    (({ t.award_point x with last_bounce_frame := f } : GameStateTracker).server ≠ t.server ↔
      Even (scoreSum { t.award_point x with last_bounce_frame := f })) :=
  award_flip_iff t x

lemma stepT_flip_all (t : GameStateTracker) (i : GInput) :
    (∀ e : GEvent, (stepT t i).2 = some e → e.is_scoring = false) ∨
    ((stepT t i).1.server ≠ t.server ↔ Even (scoreSum (stepT t i).1)) := by
  cases i with
  | bounce p b =>
    simp only [stepT, GameStateTracker.process_bounce]
    split
    · exact Or.inl (by intro e he; simp at he)
    · cases hph : t.phase <;> dsimp only <;> (try split_ifs) <;>
        first
        | (refine Or.inl ?_; intro e he; simp at he; done)
        | (refine Or.inl ?_; intro e he; simp at he; subst he; rfl)
        | exact Or.inr (award_flip_iff_lbf t _ _)
  | netHit p b =>
    simp only [stepT, GameStateTracker.process_net_hit]
    cases hph : t.phase <;> dsimp only <;>
      first
      | (refine Or.inl ?_; intro e he; simp at he; done)
      | (refine Or.inl ?_; intro e he; simp at he; subst he; rfl)
      | exact Or.inr (award_flip_iff t _)
  | finish f =>
    simp only [stepT, GameStateTracker.finish_rally]
    (try split_ifs) <;>
      first
      | (refine Or.inl ?_; intro e he; simp at he; done)
      | (refine Or.inl ?_; intro e he; simp at he; subst he; rfl)
      | exact Or.inr (award_flip_iff t _)

lemma stepT_flip (t : GameStateTracker) (i : GInput) (e : GEvent)
    (h : (stepT t i).2 = some e) (hs : e.is_scoring = true) :
    ((stepT t i).1.server ≠ t.server ↔ Even (scoreSum (stepT t i).1)) := by
  rcases stepT_flip_all t i with hL | hR
  · rw [hL e h] at hs; exact absurd hs (by simp)
  · exact hR

lemma countKnownAwards_append (a b : List GEvent) :
    countKnownAwards (a ++ b) = countKnownAwards a + countKnownAwards b := by
  simp [countKnownAwards, List.filter_append]

lemma countKnownAwards_toList (o : Option GEvent) :
    countKnownAwards o.toList = awardCountO o := by
  cases o with
  | none => simp [countKnownAwards, awardCountO]
  | some e =>
    by_cases h : isKnownAward e <;> simp [countKnownAwards, awardCountO, h]

lemma runFrom_scoreSum (l : List GInput) :
    ∀ t : GameStateTracker,
      scoreSum (runFrom t l).1 = scoreSum t + countKnownAwards (runFrom t l).2 := by
  induction l with
  | nil => intro t; simp [runFrom, countKnownAwards]
  | cons i rest ih =>
    intro t
    simp only [runFrom, countKnownAwards_append, countKnownAwards_toList]
    rw [ih (stepT t i).1, stepT_scoreSum]
    omega

/-- Claim C1, amended: over every input run from the initial state, the score
total equals the number of point-award events whose scoring side is LEFT or
RIGHT (a rally bounce landing exactly on the net line is awarded with side
UNKNOWN, emits a scoring event, and leaves the score unchanged); the total
never decreases at any step from any state; and at every step that emits a
scoring event the server flips exactly when the total after the step is
even. -/
theorem c1_amended :
    (∀ (fps : ℚ) (l : List GInput),
        scoreSum (runT fps l).1 = countKnownAwards (runT fps l).2) ∧
    (∀ (t : GameStateTracker) (i : GInput), scoreSum t ≤ scoreSum (stepT t i).1) ∧
    (∀ (t : GameStateTracker) (i : GInput) (e : GEvent),
        (stepT t i).2 = some e → e.is_scoring = true →
        ((stepT t i).1.server ≠ t.server ↔ Even (scoreSum (stepT t i).1))) := by
  refine ⟨fun fps l => ?_, fun t i => ?_, stepT_flip⟩
  · have := runFrom_scoreSum l (GameStateTracker.init fps)
    simpa [runT, scoreSum, GameStateTracker.init] using this
  · rw [stepT_scoreSum]
    omega

/-- The input run of the C1 counterexample: a legal serve by LEFT, a legal
serve completion on RIGHT, then a rally bounce landing exactly on the net
line x = 500 (side UNKNOWN, on the table). -/
def c1cexList : List GInput :=
  [GInput.bounce ⟨200, 250, 9/10, 10⟩ tbC,
   GInput.bounce ⟨800, 250, 9/10, 20⟩ tbC,
   GInput.bounce ⟨500, 250, 9/10, 30⟩ tbC]

/-- Claim C1 as stated is false: this run performs one point-award (the
Double Bounce scoring event for the net-line bounce), yet the score total
stays 0, because _award_point ignores a side of UNKNOWN; the server still
flips (total 0 is even). -/
theorem c1_counterexample :
    countScoringEvents (runT 30 c1cexList).2 = 1 ∧
    scoreSum (runT 30 c1cexList).1 = 0 ∧
    (runT 30 c1cexList).1.server = Side.RIGHT ∧
    (1 : ℕ) ≠ 0 := by
  norm_num [runT, runFrom, stepT, c1cexList, countScoringEvents, scoreSum,
    GameStateTracker.process_bounce, GameStateTracker.init,
    GameStateTracker.award_point, GameStateTracker.should_switch_server, pyInt,
    TableBounds.contains, TableBounds.get_side, sideValue, tbC]
  simp

lemma scoreOf_update_lbf (t : GameStateTracker) (f : ℤ) (s : Side) :
    scoreOf { t with last_bounce_frame := f } s = scoreOf t s := by
  cases s <;> rfl

/-! ### Claim C4: deviations during SERVE_IN_PROGRESS -/

/-- Claim C4, amended: every non-debounced bounce during SERVE_IN_PROGRESS
that is off the table or not on the opponent side yields exactly one MISS
event from the state machine with exactly one point to the opponent, but the
orchestrator rewrites the type of every scoring event, so the event visible
in the output events list has type SCORE, not MISS. -/
theorem c4_amended (t : GameStateTracker) (p : BallPosition) (b : TableBounds)
    (hphase : t.phase = GamePhase.SERVE_IN_PROGRESS)
    (hdeb : pyInt (t.fps * 0.08) ≤ p.frame - t.last_bounce_frame)
    (hdev : ¬(b.contains p.x p.y 20 = true ∧ b.get_side p.x = flipS t.server)) :
    ∃ e, (t.process_bounce p b).2 = some e ∧ e.type = "MISS" ∧ e.is_scoring = true ∧
      e.scoring_side = some (sideValue (flipS t.server)) ∧
      orchestratorEventType e = "SCORE" ∧
      scoreSum (t.process_bounce p b).1 = scoreSum t + 1 ∧
      scoreOf (t.process_bounce p b).1 (flipS t.server) = scoreOf t (flipS t.server) + 1 := by
  rw [GameStateTracker.process_bounce, if_neg (by omega)]
  simp only [hphase]
  rw [if_neg (by simpa [flipS] using hdev)]
  cases hsv : t.server <;>
    simp only [flipS, hsv] <;>
    split_ifs with hout <;>
    exact ⟨_, rfl, rfl, rfl, rfl, by simp [orchestratorEventType],
      by rw [scoreSum_update_lbf, scoreSum_award_point]; simp,
      by rw [scoreOf_update_lbf]; exact scoreOf_award_point t _ (by simp)⟩

/-- The C4 concrete deviation: serve in progress by LEFT, bounce far off the
table at x = 1200. -/
def c4t : GameStateTracker :=
  ⟨30, GamePhase.SERVE_IN_PROGRESS, Side.LEFT, 0, 0, 1, 10, Side.LEFT, 10, 0, Side.UNKNOWN⟩

def c4p : BallPosition := ⟨1200, 250, 9/10, 20⟩

/-- Witness for the amended C4 claim at the concrete deviation. -/
theorem c4_witness :
    ∃ e, (c4t.process_bounce c4p tbC).2 = some e ∧ e.type = "MISS" ∧ e.is_scoring = true ∧
      e.scoring_side = some (sideValue (flipS c4t.server)) ∧
      orchestratorEventType e = "SCORE" ∧
      scoreSum (c4t.process_bounce c4p tbC).1 = scoreSum c4t + 1 ∧
      scoreOf (c4t.process_bounce c4p tbC).1 (flipS c4t.server) =
        scoreOf c4t (flipS c4t.server) + 1 :=
  c4_amended c4t c4p tbC rfl
    (by norm_num [c4t, c4p, pyInt])
    (by norm_num [c4t, c4p, tbC, TableBounds.contains, TableBounds.get_side, flipS])

/-- Claim C4 as stated is false in its visibility part: for the concrete
deviation the state machine event has type MISS, but the event appended to
the orchestrator output list carries type SCORE, which is not MISS. -/
theorem c4_counterexample :
    ((c4t.process_bounce c4p tbC).2.map orchestratorEventType) = some "SCORE" ∧
    ((c4t.process_bounce c4p tbC).2.map fun e => e.type) = some "MISS" ∧
    ("SCORE" : String) ≠ "MISS" := by
  refine ⟨?_, ?_, by decide⟩ <;>
    norm_num [c4t, c4p, tbC, GameStateTracker.process_bounce, pyInt,
      TableBounds.contains, TableBounds.get_side, GameStateTracker.award_point,
      GameStateTracker.should_switch_server, sideValue, orchestratorEventType]

/-! ### The EnhancedEventDetector embedding -/

/-- Python list slicing from the right, l[-n:]. -/
def lastN {α : Type} (l : List α) (n : ℕ) : List α := l.drop (l.length - n)

/-- Deque append with maxlen 40: the oldest entry is evicted on overflow. -/
def capAppend (h : List BallPosition) (p : BallPosition) : List BallPosition :=
  let h2 := h ++ [p]
  h2.drop (h2.length - 40)

/-- Detector event dict.  Keys a branch leaves out are none.  The source also
stores a frameNumber key equal to frame, which is not modelled separately. -/
structure DEvent where
  frame : ℤ
  timestampMs : ℚ
  type : String
  label : String
  player : Option ℤ := none
  shotSpeed : Option ℝ := none
  shotType : Option String := none
  importance : Option ℕ := none
  rallyLength : Option ℕ := none
  confidence : Option ℚ := none

/-- EnhancedEventDetector state (fields of __init__, with the constant
_ema_alpha = 0.35 inlined where it is used). -/
structure EnhancedEventDetector where
  fps : ℚ
  frame_height : ℚ
  frame_width : ℚ
  table_bounds : Option TableBounds
  history : List BallPosition
  game_state : GameStateTracker
  pixels_per_meter : ℚ
  ema_speed_kmh : Option ℝ

/-- EnhancedEventDetector.__init__: empty history, fresh game state, and the
pixel calibration from the table width (2.74 m by 1.525 m table) or the
fallback constant 1000 without geometry. -/
def EnhancedEventDetector.mk0 (fps frame_height frame_width : ℚ)
    (table_bounds : Option TableBounds) : EnhancedEventDetector :=
  { fps := fps
    frame_height := frame_height
    frame_width := frame_width
    table_bounds := table_bounds
    history := []
    game_state := GameStateTracker.init fps
    pixels_per_meter :=
      match table_bounds with
      | some tb => (tb.x_max - tb.x_min) / 1.525
      | none => 1000
    ema_speed_kmh := none }

/-- Python round(x, 1): one decimal.  Mathlib round is round-half-up while
Python rounds half to even; the two agree except at exact odd multiples of
0.05, which no value of this development hits. -/
noncomputable def round1 (x : ℝ) : ℝ := ((round (x * 10) : ℤ) : ℝ) / 10

/-- EnhancedEventDetector.current_speed_kmh: speed over the most recent
six-sample window, smoothed with the 0.35 EMA and rounded to one decimal.
The wildcard arm of the inner match is unreachable, since the guard ensures
the window is nonempty. -/
noncomputable def EnhancedEventDetector.current_speed_kmh (s : EnhancedEventDetector) :
    Option ℝ × EnhancedEventDetector :=
  if s.history.length < 3 ∨ s.fps ≤ 0 then (none, s)
  else
    let sample := lastN s.history 6
    match sample.head?, sample.getLast? with
    | some firstP, some lastP =>
      let dt : ℚ := ((lastP.frame - firstP.frame : ℤ) : ℚ) / s.fps
      if dt ≤ 0 then (none, s)
      else
        let dx := lastP.x - firstP.x
        let dy := lastP.y - firstP.y
        let dist_pixels : ℝ := Real.sqrt ((dx : ℝ) * (dx : ℝ) + (dy : ℝ) * (dy : ℝ))
        let m_per_pixel : ℝ := 1 / (s.pixels_per_meter : ℝ)
        let speed_mps : ℝ := dist_pixels * m_per_pixel / (dt : ℝ)
        let speed_kmh : ℝ := speed_mps * 3.6
        let ema : ℝ :=
          match s.ema_speed_kmh with
          | none => speed_kmh
          | some prev => 0.35 * speed_kmh + (1 - 0.35) * prev
        (some (round1 ema), { s with ema_speed_kmh := some ema })
    | _, _ => (none, s)

/-- EnhancedEventDetector.classify_shot_type: decision tree on the last two
samples of the most recent four.  The wildcard arm is unreachable under the
length guard. -/
noncomputable def EnhancedEventDetector.classify_shot_type (s : EnhancedEventDetector) :
    Option String :=
  if s.history.length < 4 ∨ s.fps ≤ 0 then none
  else
    match lastN s.history 4 with
    | [_p3, _p2, p1, p0] =>
      let vx := p0.x - p1.x
      let vy := p0.y - p1.y
      let speed : ℝ := Real.sqrt ((vx : ℝ) * (vx : ℝ) + (vy : ℝ) * (vy : ℝ))
      let vertRatio : ℝ := |(vy : ℝ)| / (speed + 1e-6)
      if speed > (s.frame_width : ℝ) * 0.25 ∧ vy > 0 then some "smash"
      else if vy < -5 ∧ vertRatio > 0.35 then some "topspin"
      else if vy > 6 ∧ vertRatio > 0.4 ∧ speed < (s.frame_width : ℝ) * 0.18 then some "lob"
      else if speed > (s.frame_width : ℝ) * 0.22 then some "drive"
      else some "rally"
    | _ => none

/-- EnhancedEventDetector._infer_player. -/
def EnhancedEventDetector.infer_player (s : EnhancedEventDetector) (x : ℚ) : ℤ :=
  match s.table_bounds with
  | some tb => if tb.get_side x = Side.LEFT then 1 else 2
  | none => if x < s.frame_width / 2 then 1 else 2

/-- The five vertical velocity samples over the last six positions
(lines 481-482 of the source). -/
def velocitySamples (hist : List BallPosition) : List ℚ :=
  let ys := (lastN hist 6).map (fun p => p.y)
  List.zipWith (fun a b => b - a) ys ys.tail

/-- The bounce velocity threshold: 3.0 below 60 fps, else 5.0. -/
def velocityThreshold (fps : ℚ) : ℚ := if fps < 60 then 3 else 5

/-- EnhancedEventDetector._detect_bounce.  The source checks only four of
the five velocity samples: the final one (_up2) is bound but never tested.
Calling current_speed_kmh advances the EMA state, which is threaded through
the returned detector.  The wildcard arms are unreachable under the guards. -/
noncomputable def EnhancedEventDetector.detect_bounce (s : EnhancedEventDetector) :
    Option DEvent × EnhancedEventDetector :=
  if s.history.length < 6 then (none, s)
  else
    match s.history.getLast? with
    | none => (none, s)
    | some current =>
      let v_y := velocitySamples s.history
      if v_y.length < 5 then (none, s)
      else
        match lastN v_y 5 with
        | [down1, down2, mid, up1, _up2] =>
          let vt := velocityThreshold s.fps
          if down1 > vt ∧ down2 > vt * 0.5 ∧ mid > -vt * 0.3 ∧ up1 < -vt * 0.5 then
            let r := s.current_speed_kmh
            let shot_type := r.2.classify_shot_type
            (some { frame := current.frame
                    timestampMs := (current.frame : ℚ) / s.fps * 1000
                    type := "bounce"
                    label := "Ball Bounce"
                    player := some (s.infer_player current.x)
                    shotSpeed := r.1
                    shotType := shot_type
                    confidence := some current.confidence }, r.2)
          else (none, s)
        | _ => (none, s)

/-- EnhancedEventDetector._detect_net_hit.  Pure: it never touches the EMA.
The inner length test of the source (len(positions) >= 3) always holds under
the outer guard; the wildcard arms are unreachable. -/
def EnhancedEventDetector.detect_net_hit (s : EnhancedEventDetector) : Option DEvent :=
  if s.history.length < 4 ∨ s.table_bounds = none then none
  else
    match s.table_bounds with
    | none => none
    | some tb =>
      let positions := lastN s.history 4
      match positions.getLast? with
      | none => none
      | some current =>
        if ¬(tb.near_net current.x 30 = true) then none
        else
          let table_center_y := (tb.y_min + tb.y_max) / 2
          if |current.y - table_center_y| > 100 then none
          else
            match positions with
            | [_pp3, prev_prev, prev, cur] =>
              let vx_before := prev_prev.x - prev.x
              let vx_after := prev.x - cur.x
              if (|vx_before| > 5 ∧ |vx_after| < |vx_before| * 0.3) ∨
                  vx_before * vx_after < 0 then
                some { frame := cur.frame
                       timestampMs := (cur.frame : ℚ) / s.fps * 1000
                       type := "net_hit"
                       label := "Net Hit"
                       confidence := some cur.confidence }
              else none
            | _ => none

/-- EnhancedEventDetector._detect_special_shot: smash, fast shot, or long
rally highlight, first match only.  The getLast? wildcard is unreachable,
since a computed speed needs at least three history entries. -/
noncomputable def EnhancedEventDetector.detect_special_shot (s : EnhancedEventDetector) :
    Option DEvent × EnhancedEventDetector :=
  let r := s.current_speed_kmh
  match r.1 with
  | none => (none, r.2)
  | some speed_kmh =>
    match r.2.history.getLast? with
    | none => (none, r.2)
    | some current =>
      let shot_type := r.2.classify_shot_type
      if speed_kmh > 70 ∧ shot_type = some "smash" then
        (some { frame := current.frame
                timestampMs := (current.frame : ℚ) / r.2.fps * 1000
                type := "FASTEST_SHOT"
                label := "Powerful Smash"
                player := some (r.2.infer_player current.x)
                shotSpeed := some speed_kmh
                shotType := shot_type
                importance := some 8 }, r.2)
      else if speed_kmh > 55 then
        (some { frame := current.frame
                timestampMs := (current.frame : ℚ) / r.2.fps * 1000
                type := "FASTEST_SHOT"
                label := "Fast Shot"
                player := some (r.2.infer_player current.x)
                shotSpeed := some speed_kmh
                shotType := shot_type
                importance := some 6 }, r.2)
      else if 10 ≤ r.2.game_state.rally_shot_count then
        (some { frame := current.frame
                timestampMs := (current.frame : ℚ) / r.2.fps * 1000
                type := "RALLY_HIGHLIGHT"
                label := "Extended Rally"
                rallyLength := some r.2.game_state.rally_shot_count
                importance := some 7 }, r.2)
      else (none, r.2)

/-- An event returned by add_position: either a detector payload merged via
dict.update with a game-state event (whose type, label and scoring keys
overwrite the payload), or a plain special-shot payload. -/
inductive OutEvent
  | gameMerged (payload : DEvent) (game : GEvent)
  | detectorOnly (payload : DEvent)

/-- The type key of an output event after the dict merge. -/
def OutEvent.typeStr : OutEvent → String
  | OutEvent.gameMerged _ g => g.type
  | OutEvent.detectorOnly d => d.type

/-- True for the pure detector events (FASTEST_SHOT or RALLY_HIGHLIGHT). -/
def isSpecialOnly : OutEvent → Bool
  | OutEvent.detectorOnly d => d.type == "FASTEST_SHOT" || d.type == "RALLY_HIGHLIGHT"
  | _ => false

/-- EnhancedEventDetector.add_position: append to the bounded history, then
run bounce detection (feeding the game state machine only when geometry is
present), net-hit detection (only with geometry and near the net), and
special-shot detection, in source order. -/
noncomputable def EnhancedEventDetector.add_position (s : EnhancedEventDetector)
    (pos : BallPosition) : List OutEvent × EnhancedEventDetector :=
  let s0 : EnhancedEventDetector := { s with history := capAppend s.history pos }
  if s0.history.length < 4 then ([], s0)
  else
    let rb := s0.detect_bounce
    let part1 : List OutEvent × EnhancedEventDetector :=
      match rb.1, rb.2.table_bounds with
      | some be, some tb =>
        let rg := rb.2.game_state.process_bounce pos tb
        let s2 : EnhancedEventDetector := { rb.2 with game_state := rg.1 }
        ((match rg.2 with
          | some ge => [OutEvent.gameMerged be ge]
          | none => []), s2)
      | _, _ => ([], rb.2)
    let part2 : List OutEvent × EnhancedEventDetector :=
      match part1.2.table_bounds with
      | some tb =>
        if tb.near_net pos.x 30 = true then
          match part1.2.detect_net_hit with
          | some ne =>
            let rg := part1.2.game_state.process_net_hit pos tb
            let s3 : EnhancedEventDetector := { part1.2 with game_state := rg.1 }
            ((match rg.2 with
              | some ge => [OutEvent.gameMerged ne ge]
              | none => []), s3)
          | none => ([], part1.2)
        else ([], part1.2)
      | none => ([], part1.2)
    let rs := part2.2.detect_special_shot
    ((part1.1 ++ part2.1 ++ (match rs.1 with
      | some de => [OutEvent.detectorOnly de]
      | none => [])), rs.2)

/-- EnhancedEventDetector.get_score: (player 1, player 2). -/
def EnhancedEventDetector.get_score (s : EnhancedEventDetector) : ℕ × ℕ :=
  (s.game_state.scoreLeft, s.game_state.scoreRight)

/-- Feed a list of observations through add_position, collecting every
emitted event, as the orchestrator does for detected frames. -/
noncomputable def feedD :
    EnhancedEventDetector → List BallPosition → List OutEvent × EnhancedEventDetector
  | s, [] => ([], s)
  | s, p :: rest =>
    let r := s.add_position p
    let rr := feedD r.2 rest
    (r.1 ++ rr.1, rr.2)

/-! ### Claim C6: the bounce candidate condition -/

/-- The bounce pattern the code actually tests on the last five velocity
samples: two downward steps (the first above the threshold, the second above
half of it), a transitional step above minus 0.3 threshold, and one upward
step beyond half the flipped threshold.  The fifth sample is unconstrained. -/
def bouncePattern (fps : ℚ) (hist : List BallPosition) : Prop :=
  match lastN (velocitySamples hist) 5 with
  | [down1, down2, mid, up1, _up2] =>
    down1 > velocityThreshold fps ∧ down2 > velocityThreshold fps * 0.5 ∧
      mid > -velocityThreshold fps * 0.3 ∧ up1 < -velocityThreshold fps * 0.5
  | _ => False

lemma velocitySamples_length (hist : List BallPosition) (h : 6 ≤ hist.length) :
    (velocitySamples hist).length = 5 := by
  simp only [velocitySamples, List.length_zipWith, List.length_tail, List.length_map,
    lastN, List.length_drop]
  omega

lemma exists_five {α : Type} (l : List α) (h : l.length = 5) :
    ∃ a b c d e, l = [a, b, c, d, e] := by
  rcases l with _ | ⟨a, _ | ⟨b, _ | ⟨c, _ | ⟨d, _ | ⟨e, _ | ⟨f, l⟩⟩⟩⟩⟩⟩ <;>
    simp_all

/-- Claim C6, amended: _detect_bounce reports a candidate iff the history
holds at least six samples and the velocity pattern of the code holds: first
step above the threshold, second above half of it, transitional step above
minus 0.3 threshold, fourth step below minus half the threshold; the fifth
(second upward) step is never inspected.  With fewer than six positions no
candidate is ever reported. -/
theorem c6_amended (s : EnhancedEventDetector) :
    s.detect_bounce.1.isSome = true ↔
      (6 ≤ s.history.length ∧ bouncePattern s.fps s.history) := by
  rw [EnhancedEventDetector.detect_bounce]
  by_cases h6 : s.history.length < 6
  · rw [if_pos h6]
    simp only [Option.isSome_none, Bool.false_eq_true, false_iff, not_and]
    intro h
    omega
  · rw [if_neg h6]
    have hne : s.history ≠ [] := by
      intro h
      rw [h] at h6
      simp at h6
    obtain ⟨cur, hcur⟩ := Option.isSome_iff_exists.mp (List.getLast?_isSome.mpr hne)
    rw [hcur]
    dsimp only
    have hlen : (velocitySamples s.history).length = 5 :=
      velocitySamples_length s.history (by omega)
    obtain ⟨a, b, c, d, e2, hv⟩ := exists_five _ hlen
    rw [hv]
    rw [if_neg (by norm_num)]
    have hlast : lastN [a, b, c, d, e2] 5 = [a, b, c, d, e2] := by
      simp [lastN]
    simp only [hlast, bouncePattern, hv]
    split_ifs with hc
    · simp only [Option.isSome_some, true_iff]
      exact ⟨by omega, hc⟩
    · simp only [Option.isSome_none, Bool.false_eq_true, false_iff]
      intro h
      exact hc h.2


/-- Modelled from the spec: the claimed bounce pattern finishes with two
upward steps whose magnitude exceeds the (direction-flipped) threshold.
In image coordinates an upward step is a negative velocity sample, so at
the very least both of the final two samples must be negative. -/
def specUpwardFinish (hist : List BallPosition) : Prop :=
  match lastN (velocitySamples hist) 5 with
  | [_d1, _d2, _m, u1, u2] => u1 < 0 ∧ u2 < 0
  | _ => False

/-- Six positions at 30 fps whose vertical velocity samples are
4, 2, 0, -2, 5: the code pattern holds although the final step is downward. -/
def c6hist : List BallPosition :=
  [⟨100, 0, 1, 0⟩, ⟨100, 4, 1, 1⟩, ⟨100, 6, 1, 2⟩,
   ⟨100, 6, 1, 3⟩, ⟨100, 4, 1, 4⟩, ⟨100, 9, 1, 5⟩]

def c6det : EnhancedEventDetector :=
  { fps := 30
    frame_height := 500
    frame_width := 1000
    table_bounds := none
    history := c6hist
    game_state := GameStateTracker.init 30
    pixels_per_meter := 1000
    ema_speed_kmh := none }

/-- Claim C6 as stated is false: on this history _detect_bounce does report
a bounce candidate, yet the final velocity sample is 5 (a further downward
step), so the claimed two-upward-steps finish does not hold; the code never
inspects the fifth sample. -/
theorem c6_counterexample :
    c6det.detect_bounce.1.isSome = true ∧
    velocitySamples c6det.history = [4, 2, 0, -2, 5] ∧
    ¬ specUpwardFinish c6det.history := by
  have hv : velocitySamples c6det.history = [4, 2, 0, -2, 5] := by
    norm_num [velocitySamples, lastN, c6det, c6hist]
  refine ⟨?_, hv, ?_⟩
  · rw [EnhancedEventDetector.detect_bounce]
    rw [if_neg (by norm_num [c6det, c6hist])]
    rw [show c6det.history.getLast? = some ⟨100, 9, 1, 5⟩ from by norm_num [c6det, c6hist]]
    dsimp only
    rw [hv]
    rw [if_neg (by norm_num)]
    rw [show lastN [(4 : ℚ), 2, 0, -2, 5] 5 = [4, 2, 0, -2, 5] from by norm_num [lastN]]
    dsimp only
    rw [if_pos (by norm_num [velocityThreshold, c6det])]
    rfl
  · rw [specUpwardFinish]
    rw [hv]
    rw [show lastN [(4 : ℚ), 2, 0, -2, 5] 5 = [4, 2, 0, -2, 5] from by norm_num [lastN]]
    norm_num

/-! ### Claim C10: a detector without geometry -/

lemma csk_fields (s : EnhancedEventDetector) :
    s.current_speed_kmh.2.table_bounds = s.table_bounds ∧
    s.current_speed_kmh.2.game_state = s.game_state ∧
    s.current_speed_kmh.2.history = s.history := by
  rw [EnhancedEventDetector.current_speed_kmh]
  split
  · exact ⟨rfl, rfl, rfl⟩
  · rcases h1 : (lastN s.history 6).head? with _ | fp <;>
      rcases h2 : (lastN s.history 6).getLast? with _ | lp <;>
      simp only [h1, h2] <;>
      first
      | exact ⟨trivial, trivial, trivial⟩
      | exact ⟨rfl, rfl, rfl⟩
      | (split_ifs <;> exact ⟨rfl, rfl, rfl⟩)

lemma detect_bounce_fields (s : EnhancedEventDetector) :
    s.detect_bounce.2.table_bounds = s.table_bounds ∧
    s.detect_bounce.2.game_state = s.game_state := by
  rw [EnhancedEventDetector.detect_bounce]
  dsimp only
  repeat' split
  all_goals
    first
    | exact ⟨rfl, rfl⟩
    | exact ⟨(csk_fields s).1, (csk_fields s).2.1⟩

lemma detect_special_fields (s : EnhancedEventDetector) :
    s.detect_special_shot.2.table_bounds = s.table_bounds ∧
    s.detect_special_shot.2.game_state = s.game_state := by
  rw [EnhancedEventDetector.detect_special_shot]
  dsimp only
  repeat' split
  all_goals
    first
    | exact ⟨rfl, rfl⟩
    | exact ⟨(csk_fields s).1, (csk_fields s).2.1⟩

lemma detect_special_types (s : EnhancedEventDetector) :
    ∀ d : DEvent, s.detect_special_shot.1 = some d →
      d.type = "FASTEST_SHOT" ∨ d.type = "RALLY_HIGHLIGHT" := by
  intro d hd
  rw [EnhancedEventDetector.detect_special_shot] at hd
  revert hd
  dsimp only
  repeat' split
  all_goals intro hd
  all_goals
    first
    | (obtain rfl := (Option.some_inj.mp hd).symm
       first
       | exact Or.inl rfl
       | exact Or.inr rfl)
    | (exfalso; simp at hd)

lemma add_position_none (s : EnhancedEventDetector) (hb : s.table_bounds = none)
    (p : BallPosition) :
    ((s.add_position p).1.all isSpecialOnly = true) ∧
    (s.add_position p).2.table_bounds = none ∧
    (s.add_position p).2.game_state = s.game_state := by
  rw [EnhancedEventDetector.add_position]
  split_ifs with h4
  · exact ⟨rfl, hb, rfl⟩
  · have hs0 : ({ s with history := capAppend s.history p } :
        EnhancedEventDetector).table_bounds = none := hb
    have hdb := detect_bounce_fields { s with history := capAppend s.history p }
    have hdbn : ({ s with history := capAppend s.history p } :
        EnhancedEventDetector).detect_bounce.2.table_bounds = none := hdb.1.trans hs0
    have hsp := detect_special_fields
      ({ s with history := capAppend s.history p } :
        EnhancedEventDetector).detect_bounce.2
    have hty := detect_special_types
      ({ s with history := capAppend s.history p } :
        EnhancedEventDetector).detect_bounce.2
    rcases hrb : ({ s with history := capAppend s.history p } :
        EnhancedEventDetector).detect_bounce.1 with _ | be <;>
      simp only [hrb, hdbn] <;>
      refine ⟨?_, hsp.1.trans hdbn, hsp.2.trans hdb.2⟩ <;>
      · rcases hspec : ({ s with history := capAppend s.history p } :
            EnhancedEventDetector).detect_bounce.2.detect_special_shot.1 with _ | de
        · simp [hspec]
        · rcases hty de hspec with h | h <;> simp [hspec, isSpecialOnly, h]

lemma feedD_none (ps : List BallPosition) :
    ∀ s : EnhancedEventDetector, s.table_bounds = none →
      ((feedD s ps).1.all isSpecialOnly = true) ∧
      (feedD s ps).2.table_bounds = none ∧
      (feedD s ps).2.game_state = s.game_state := by
  induction ps with
  | nil => intro s hb; exact ⟨rfl, hb, rfl⟩
  | cons p rest ih =>
    intro s hb
    obtain ⟨h1, h2, h3⟩ := add_position_none s hb p
    obtain ⟨h4, h5, h6⟩ := ih (s.add_position p).2 h2
    refine ⟨?_, h5, h6.trans h3⟩
    simp only [feedD, List.all_append, h1, h4, Bool.and_self]

/-- Claim C10: with no table geometry and set_table_bounds never called,
every event add_position ever emits is a pure detector event of type
FASTEST_SHOT or RALLY_HIGHLIGHT (never serve, bounce, MISS, SCORE, or
net-hit), the game state stays exactly the initial one (phase
WAITING_FOR_SERVE), and get_score stays (0, 0). -/
theorem c10_no_geometry (fps fh fw : ℚ) (ps : List BallPosition) :
    ((feedD (EnhancedEventDetector.mk0 fps fh fw none) ps).1.all isSpecialOnly = true) ∧
    (feedD (EnhancedEventDetector.mk0 fps fh fw none) ps).2.game_state =
      GameStateTracker.init fps ∧
    (feedD (EnhancedEventDetector.mk0 fps fh fw none) ps).2.game_state.phase =
      GamePhase.WAITING_FOR_SERVE ∧
    (feedD (EnhancedEventDetector.mk0 fps fh fw none) ps).2.get_score = (0, 0) := by
  obtain ⟨h1, _h2, h3⟩ := feedD_none ps (EnhancedEventDetector.mk0 fps fh fw none) rfl
  have hg : (feedD (EnhancedEventDetector.mk0 fps fh fw none) ps).2.game_state =
      GameStateTracker.init fps := h3
  refine ⟨h1, hg, ?_, ?_⟩
  · rw [hg]; rfl
  · rw [EnhancedEventDetector.get_score, hg]; rfl

/-! ### Claim C9: EMA speed under a constant per-frame displacement -/

/-- One probe of the speed protocol: append the observation to the bounded
history, then call current_speed_kmh, as successive detector calls do while
samples arrive. -/
noncomputable def speedProbe (s : EnhancedEventDetector) (p : BallPosition) :
    Option ℝ × EnhancedEventDetector :=
  ({ s with history := capAppend s.history p } : EnhancedEventDetector).current_speed_kmh

/-- The values and detector states of successive probes over a stream of
observations. -/
noncomputable def speedTrace (s0 : EnhancedEventDetector) (pf : ℕ → BallPosition) :
    ℕ → Option ℝ × EnhancedEventDetector
  | 0 => speedProbe s0 (pf 0)
  | n + 1 => speedProbe (speedTrace s0 pf n).2 (pf (n + 1))

/-- Observations with constant per-frame displacement (dx, dy) at
consecutive frames. -/
def affinePos (x0 y0 dx dy c : ℚ) (f0 : ℤ) (i : ℕ) : BallPosition :=
  ⟨x0 + i * dx, y0 + i * dy, c, f0 + i⟩

/-- The constant instantaneous speed of such a stream in km/h: pixel step
length per frame, times frames per second, through the pixel calibration,
times 3.6. -/
noncomputable def rawV (fps ppm dx dy : ℚ) : ℝ :=
  Real.sqrt ((dx : ℝ) * (dx : ℝ) + (dy : ℝ) * (dy : ℝ)) * (fps : ℝ) / (ppm : ℝ) * 3.6

lemma drop_range1 (s m n : ℕ) :
    (List.range' s n).drop m = List.range' (s + m) (n - m) := by
  by_cases h : m ≤ n
  · conv_lhs => rw [show n = n - m + m from by omega,
      ← List.range'_append_1 s m (n - m)]
    exact List.drop_left' (by simp)
  · rw [show n - m = 0 from by omega]
    rw [List.drop_eq_nil_of_le (by simp; omega)]
    simp

lemma capAppend_affine (pf : ℕ → BallPosition) (n : ℕ) :
    capAppend ((List.range' (n + 1 - 40) (min (n + 1) 40)).map pf) (pf (n + 1)) =
      (List.range' (n + 2 - 40) (min (n + 2) 40)).map pf := by
  have hal : (n + 1 - 40) + min (n + 1) 40 = n + 1 := by omega
  rw [capAppend]
  have h1 : (List.range' (n + 1 - 40) (min (n + 1) 40)).map pf ++ [pf (n + 1)] =
      (List.range' (n + 1 - 40) (min (n + 1) 40 + 1)).map pf := by
    rw [List.range'_1_concat, List.map_append, hal]
    simp
  rw [h1]
  rw [← List.map_drop]
  rw [List.length_map, List.length_range']
  rw [drop_range1]
  have e1 : (n + 1 - 40) + (min (n + 1) 40 + 1 - 40) = n + 2 - 40 := by omega
  have e2 : (min (n + 1) 40 + 1) - (min (n + 1) 40 + 1 - 40) = min (n + 2) 40 := by omega
  rw [e1, e2]

lemma speedTrace_state (s0 : EnhancedEventDetector) (x0 y0 dx dy c : ℚ) (f0 : ℤ)
    (h0 : s0.history = []) (hema : s0.ema_speed_kmh = none)
    (hf : 0 < s0.fps) (hp : 0 < s0.pixels_per_meter) :
    ∀ n : ℕ,
      (speedTrace s0 (affinePos x0 y0 dx dy c f0) n).2.history =
        (List.range' (n + 1 - 40) (min (n + 1) 40)).map (affinePos x0 y0 dx dy c f0) ∧
      (speedTrace s0 (affinePos x0 y0 dx dy c f0) n).2.fps = s0.fps ∧
      (speedTrace s0 (affinePos x0 y0 dx dy c f0) n).2.pixels_per_meter =
        s0.pixels_per_meter ∧
      (speedTrace s0 (affinePos x0 y0 dx dy c f0) n).2.ema_speed_kmh =
        (if 2 ≤ n then some (rawV s0.fps s0.pixels_per_meter dx dy) else none) ∧
      (speedTrace s0 (affinePos x0 y0 dx dy c f0) n).1 =
        (if 2 ≤ n then some (round1 (rawV s0.fps s0.pixels_per_meter dx dy)) else none) := by
  intro n
  induction n with
  | zero =>
    have hpush : capAppend s0.history (affinePos x0 y0 dx dy c f0 0) =
        [affinePos x0 y0 dx dy c f0 0] := by
      rw [h0]; rfl
    simp only [speedTrace, speedProbe, hpush]
    rw [EnhancedEventDetector.current_speed_kmh]
    rw [if_pos (by simp)]
    refine ⟨?_, rfl, rfl, by simpa using hema, by norm_num⟩
    simp [List.range'_one]
  | succ n ih =>
    obtain ⟨ih1, ih2, ih3, ih4, ih5⟩ := ih
    have hcap : capAppend (speedTrace s0 (affinePos x0 y0 dx dy c f0) n).2.history
        (affinePos x0 y0 dx dy c f0 (n + 1)) =
        (List.range' (n + 2 - 40) (min (n + 2) 40)).map (affinePos x0 y0 dx dy c f0) := by
      rw [ih1]
      exact capAppend_affine (affinePos x0 y0 dx dy c f0) n
    simp only [speedTrace, speedProbe, hcap]
    rw [EnhancedEventDetector.current_speed_kmh]
    by_cases hn1 : n = 0
    · subst hn1
      rw [if_pos (by left; simp)]
      exact ⟨rfl, ih2, ih3, by simpa using ih4, by norm_num⟩
    · have hn2 : 1 ≤ n := by omega
      rw [if_neg (by
        push_neg
        constructor
        · simp only [List.length_map, List.length_range']
          omega
        · simp only [ih2]
          exact hf)]
      have hsample : lastN ((List.range' (n + 2 - 40) (min (n + 2) 40)).map
          (affinePos x0 y0 dx dy c f0)) 6 =
          (List.range' (n + 2 - 40 + (min (n + 2) 40 - 6))
            (min (n + 2) 40 - (min (n + 2) 40 - 6))).map (affinePos x0 y0 dx dy c f0) := by
        rw [lastN, List.length_map, List.length_range', ← List.map_drop, drop_range1]
      obtain ⟨K, hK, hK2⟩ :
          ∃ K, min (n + 2) 40 - (min (n + 2) 40 - 6) = K + 1 ∧ 2 ≤ K :=
        ⟨min (n + 2) 40 - (min (n + 2) 40 - 6) - 1, by omega, by omega⟩
      have hhead : (lastN ((List.range' (n + 2 - 40) (min (n + 2) 40)).map
          (affinePos x0 y0 dx dy c f0)) 6).head? =
          some (affinePos x0 y0 dx dy c f0 (n + 2 - 40 + (min (n + 2) 40 - 6))) := by
        rw [hsample, List.head?_map, List.head?_range', if_neg (by omega)]
        rfl
      have hlastq : (lastN ((List.range' (n + 2 - 40) (min (n + 2) 40)).map
          (affinePos x0 y0 dx dy c f0)) 6).getLast? =
          some (affinePos x0 y0 dx dy c f0 (n + 2 - 40 + (min (n + 2) 40 - 6) + K)) := by
        rw [hsample, List.getLast?_map, List.getLast?_range', if_neg (by omega), hK]
        simp
      simp only [hhead, hlastq, affinePos, ih2, ih3]
      have hsub : f0 + ((n + 2 - 40 + (min (n + 2) 40 - 6) + K : ℕ) : ℤ) -
          (f0 + ((n + 2 - 40 + (min (n + 2) 40 - 6) : ℕ) : ℤ)) = (K : ℤ) := by
        push_cast
        ring
      rw [hsub]
      have hKQ : (0 : ℚ) < ((K : ℤ) : ℚ) := by
        exact_mod_cast (by omega : 0 < K)
      rw [if_neg (not_le.mpr (div_pos hKQ hf))]
      have hdx : x0 + ((n + 2 - 40 + (min (n + 2) 40 - 6) + K : ℕ) : ℚ) * dx -
          (x0 + ((n + 2 - 40 + (min (n + 2) 40 - 6) : ℕ) : ℚ) * dx) = (K : ℚ) * dx := by
        push_cast
        ring
      have hdy : y0 + ((n + 2 - 40 + (min (n + 2) 40 - 6) + K : ℕ) : ℚ) * dy -
          (y0 + ((n + 2 - 40 + (min (n + 2) 40 - 6) : ℕ) : ℚ) * dy) = (K : ℚ) * dy := by
        push_cast
        ring
      rw [hdx, hdy]
      have hKR : (0 : ℝ) < (K : ℝ) := by exact_mod_cast (by omega : 0 < K)
      have hfR : (0 : ℝ) < (s0.fps : ℝ) := by exact_mod_cast hf
      have hpR : (0 : ℝ) < (s0.pixels_per_meter : ℝ) := by exact_mod_cast hp
      have hspeed : Real.sqrt ((((K : ℚ) * dx : ℚ) : ℝ) * (((K : ℚ) * dx : ℚ) : ℝ) +
            (((K : ℚ) * dy : ℚ) : ℝ) * (((K : ℚ) * dy : ℚ) : ℝ)) *
            (1 / (s0.pixels_per_meter : ℝ)) / ((((K : ℤ) : ℚ) / s0.fps : ℚ) : ℝ) * 3.6 =
          rawV s0.fps s0.pixels_per_meter dx dy := by
        have h1 : (((K : ℚ) * dx : ℚ) : ℝ) * (((K : ℚ) * dx : ℚ) : ℝ) +
            (((K : ℚ) * dy : ℚ) : ℝ) * (((K : ℚ) * dy : ℚ) : ℝ) =
            ((K : ℝ)) ^ 2 * ((dx : ℝ) * (dx : ℝ) + (dy : ℝ) * (dy : ℝ)) := by
          push_cast
          ring
        rw [h1, Real.sqrt_mul (by positivity), Real.sqrt_sq hKR.le]
        have h2 : ((((K : ℤ) : ℚ) / s0.fps : ℚ) : ℝ) = (K : ℝ) / (s0.fps : ℝ) := by
          push_cast
          ring
        rw [h2, rawV]
        field_simp
        ring
      rw [hspeed]
      rw [ih4]
      by_cases hn3 : 2 ≤ n
      · rw [if_pos hn3]
        dsimp only
        have hE : 0.35 * rawV s0.fps s0.pixels_per_meter dx dy +
            (1 - 0.35) * rawV s0.fps s0.pixels_per_meter dx dy =
            rawV s0.fps s0.pixels_per_meter dx dy := by
          ring
        rw [hE]
        exact ⟨rfl, rfl, rfl, by rw [if_pos (by omega)], by rw [if_pos (by omega)]⟩
      · rw [if_neg hn3]
        dsimp only
        exact ⟨rfl, rfl, rfl, by rw [if_pos (by omega)], by rw [if_pos (by omega)]⟩

/-- Claim C9, amended: under a constant per-frame displacement from a fresh
detector, every value current_speed_kmh returns (from the third sample on)
equals round1 of the constant instantaneous speed v, the internal EMA equals
v exactly, and the returned sequence, being eventually constant, is monotone
and converges to round1 v, the one-decimal rounding of v, rather than to v
itself. -/
theorem c9_amended (s0 : EnhancedEventDetector) (x0 y0 dx dy c : ℚ) (f0 : ℤ) (n : ℕ)
    (h0 : s0.history = []) (hema : s0.ema_speed_kmh = none)
    (hf : 0 < s0.fps) (hp : 0 < s0.pixels_per_meter) (hn : 2 ≤ n) :
    (speedTrace s0 (affinePos x0 y0 dx dy c f0) n).1 =
      some (round1 (rawV s0.fps s0.pixels_per_meter dx dy)) ∧
    (speedTrace s0 (affinePos x0 y0 dx dy c f0) n).2.ema_speed_kmh =
      some (rawV s0.fps s0.pixels_per_meter dx dy) ∧
    Filter.Tendsto (fun k => ((speedTrace s0 (affinePos x0 y0 dx dy c f0) k).1).getD 0)
      Filter.atTop (nhds (round1 (rawV s0.fps s0.pixels_per_meter dx dy))) := by
  have hstate := speedTrace_state s0 x0 y0 dx dy c f0 h0 hema hf hp
  refine ⟨?_, ?_, ?_⟩
  · rw [(hstate n).2.2.2.2, if_pos hn]
  · rw [(hstate n).2.2.2.1, if_pos hn]
  · refine Filter.Tendsto.congr' ?_ tendsto_const_nhds
    filter_upwards [Filter.eventually_ge_atTop 2] with k hk
    rw [(hstate k).2.2.2.2, if_pos hk]
    rfl

/-- Witness for the amended C9 claim: the concrete 30 fps stream moving one
pixel per frame with the fallback calibration of 1000 pixels per metre. -/
theorem c9_witness :
    (speedTrace (EnhancedEventDetector.mk0 30 500 1000 none)
      (affinePos 0 0 1 0 1 0) 5).1 = some (round1 (rawV 30 1000 1 0)) ∧
    (speedTrace (EnhancedEventDetector.mk0 30 500 1000 none)
      (affinePos 0 0 1 0 1 0) 5).2.ema_speed_kmh = some (rawV 30 1000 1 0) ∧
    Filter.Tendsto (fun k => ((speedTrace (EnhancedEventDetector.mk0 30 500 1000 none)
      (affinePos 0 0 1 0 1 0) k).1).getD 0)
      Filter.atTop (nhds (round1 (rawV 30 1000 1 0))) :=
  c9_amended (EnhancedEventDetector.mk0 30 500 1000 none) 0 0 1 0 1 0 5 rfl rfl
    (by norm_num [EnhancedEventDetector.mk0]) (by norm_num [EnhancedEventDetector.mk0])
    (by norm_num)

/-- The sequence of values the concrete stream returns (0 while warming up). -/
noncomputable def c9seq : ℕ → ℝ := fun k =>
  ((speedTrace (EnhancedEventDetector.mk0 30 500 1000 none)
    (affinePos 0 0 1 0 1 0) k).1).getD 0

/-- Claim C9 as stated is false: for the one-pixel-per-frame stream at
30 fps with the fallback calibration the instantaneous speed is
v = 0.108 km/h, but the returned sequence is constantly 0.1 (the one-decimal
rounding), so it converges to 0.1 and not to v. -/
theorem c9_counterexample :
    rawV 30 1000 1 0 = 27 / 250 ∧
    Filter.Tendsto c9seq Filter.atTop (nhds (1 / 10)) ∧
    ¬ Filter.Tendsto c9seq Filter.atTop (nhds ((27 : ℝ) / 250)) := by
  have hraw : rawV 30 1000 1 0 = 27 / 250 := by
    rw [rawV]
    norm_num
  have hround : round1 ((27 : ℝ) / 250) = 1 / 10 := by
    rw [round1, round_eq]
    have : ⌊(27 : ℝ) / 250 * 10 + 1 / 2⌋ = 1 := by
      rw [Int.floor_eq_iff]
      constructor <;> norm_num
    rw [this]
    norm_num
  have hstate := speedTrace_state (EnhancedEventDetector.mk0 30 500 1000 none) 0 0 1 0 1 0
    rfl rfl (by norm_num [EnhancedEventDetector.mk0]) (by norm_num [EnhancedEventDetector.mk0])
  have hconst : ∀ k, 2 ≤ k → c9seq k = 1 / 10 := by
    intro k hk
    show ((speedTrace (EnhancedEventDetector.mk0 30 500 1000 none)
      (affinePos 0 0 1 0 1 0) k).1).getD 0 = 1 / 10
    rw [(hstate k).2.2.2.2, if_pos hk]
    rw [show (EnhancedEventDetector.mk0 30 500 1000 none).fps = 30 from rfl,
      show (EnhancedEventDetector.mk0 30 500 1000 none).pixels_per_meter = 1000 from rfl,
      hraw]
    rw [Option.getD_some, hround]
  have htend : Filter.Tendsto c9seq Filter.atTop (nhds (1 / 10)) := by
    refine Filter.Tendsto.congr' ?_ tendsto_const_nhds
    filter_upwards [Filter.eventually_ge_atTop 2] with k hk
    exact (hconst k hk).symm
  refine ⟨hraw, htend, fun h => ?_⟩
  have := tendsto_nhds_unique h htend
  norm_num at this

end AllanAI
